import Mathlib

/-!
Shallow embedding of the panel-interview orchestration core of
`userboard4-baimuratov.py`: transcript turn records, the prompt composers,
the interview loop state machine, the analysis-stage prompt building and
schema validation, and the batch driver.

External collaborators are modelled as parameters, exactly at the
boundaries the code uses them:
* the text-generation backend appears as function parameters
  (`fac`, `answerOf`, `sentimentOf`, `summarizeOf`, and `Except`-valued
  variants for the fallible model used by the batch driver);
* console rendering and file writing are I/O adapters; the batch driver
  model records the console header lines it prints and the artifacts the
  completed interviews persist;
* `datetime.now()` is abstracted as a `today : String` parameter.

The Python `while True` loop is embedded with explicit fuel; the
termination theorems show that `len(core_questions) + max_followups + 1`
units of fuel always suffice, so the fuel never runs out on the canonical
entry state (matching the unbounded Python loop).
-/

/-- A transcript turn record, the tagged union stored in `transcript`:
a facilitator question is a dict `\x7b"role": "user", "content": ...\x7d`,
a persona answer is `\x7b"role": "assistant", "content": ..., "name": ...\x7d`. -/
inductive Msg where
  | question (content : String)
  | answer (name : String) (content : String)
  deriving DecidableEq, Repr

/-- A chat message handed to the generation backend (`role`/`content` dict). -/
structure ChatMsg where
  role : String
  content : String
  deriving DecidableEq, Repr

/-- A roster persona (`name`, `description`); optional color/emoji styling is a
presentation concern and not part of the orchestration state. -/
structure Persona where
  name : String
  description : String
  deriving DecidableEq, Repr

/-- The facilitator's structured output (`FacOut` pydantic model). -/
structure FacOut where
  next_question : String
  should_end : Bool
  deriving DecidableEq, Repr

/-- The `SummaryReport` pydantic model. -/
structure SummaryReport where
  market_perspective : String
  go_or_no_go : String
  rationale : List String
  deriving DecidableEq, Repr

/-- The `PersonaSentiment` pydantic model. -/
structure PersonaSentiment where
  name : String
  sentiment : String
  key_points : List String
  summary : String
  deriving DecidableEq, Repr

/-- The `SentimentAnalysis` pydantic model: a bare list of entries. -/
structure SentimentAnalysis where
  personas : List PersonaSentiment
  deriving DecidableEq, Repr

/-! ### Python string rendering helpers

`transcript_to_facilitator_prompt` interpolates Python lists of strings into
an f-string, which renders them with `str(list)`, i.e. brackets around
comma-separated `repr` of the elements.  `pyRepr` mirrors CPython's `repr`
for strings over printable characters: quote choice plus escaping of the
backslash, the chosen quote, and newline/carriage-return/tab. -/

/-- The single-quote character. -/
def sqC : Char := Char.ofNat 39

/-- The double-quote character. -/
def dqC : Char := Char.ofNat 34

/-- The backslash character. -/
def bsC : Char := Char.ofNat 92

/-- The newline character. -/
def nlC : Char := Char.ofNat 10

/-- The carriage-return character. -/
def crC : Char := Char.ofNat 13

/-- The tab character. -/
def tabC : Char := Char.ofNat 9

/-- Escape one character the way Python `repr` does inside a string literal
delimited by `quote`. -/
def pyEscapeChar (quote c : Char) : String :=
  if c = bsC then String.singleton bsC ++ String.singleton bsC
  else if c = quote then String.singleton bsC ++ String.singleton quote
  else if c = nlC then String.singleton bsC ++ "n"
  else if c = crC then String.singleton bsC ++ "r"
  else if c = tabC then String.singleton bsC ++ "t"
  else String.singleton c

/-- Python `repr` of a string (printable characters): single quotes unless the
string contains a single quote and no double quote. -/
def pyRepr (s : String) : String :=
  let quote := if sqC ∈ s.toList ∧ dqC ∉ s.toList then dqC else sqC
  String.singleton quote ++ String.join (s.toList.map (pyEscapeChar quote))
    ++ String.singleton quote

/-- Python `str` of a list of strings: `repr` elements joined by a comma and a
space, inside square brackets. -/
def pyStrList (xs : List String) : String :=
  "[" ++ String.intercalate ", " (xs.map pyRepr) ++ "]"

/-! ### Facilitator view (`transcript_to_facilitator_prompt`) -/

/-- One transcript record rendered into the facilitator prompt's
"Recent conversation" section (the body of the `for msg in recent_msgs` loop). -/
def render_fac_msg : Msg → String
  | Msg.question c => "\nFacilitator: " ++ c ++ "\n"
  | Msg.answer n c =>
      if n ≠ "" then n ++ ": " ++ c ++ "\n" else "Assistant: " ++ c ++ "\n"

/-- The bounded window of recent records used by the facilitator prompt:
`transcript[-20:] if len(transcript) > 20 else transcript`. -/
def fac_recent (t : List Msg) : List Msg :=
  if t.length > 20 then t.drop (t.length - 20) else t

/-- The text of the facilitator prompt's user message. -/
def fac_prompt_text (topic : String) (t : List Msg) (core asked : List String) :
    String :=
  "You are facilitating an interview about the following idea:\n" ++ topic
    ++ "\n\nQuestions to ask:\n- Core questions: " ++ pyStrList core
    ++ "\n- Already asked: " ++ pyStrList asked
    ++ "\n\nRecent conversation:\n"
    ++ String.join ((fac_recent t).map render_fac_msg)
    ++ "\nDecide on the next question to ask or if the interview should end."

/-- `transcript_to_facilitator_prompt(topic, transcript, core_questions,
asked_questions)`. -/
def transcript_to_facilitator_prompt (topic : String) (t : List Msg)
    (core asked : List String) : List ChatMsg :=
  [⟨"system", "You are a facilitator conducting an interview."⟩,
   ⟨"user", fac_prompt_text topic t core asked⟩]

/-! ### Persona view (`transcript_to_persona_prompt`) -/

/-- The scan of `transcript_to_persona_prompt` that fills
`responses_for_current_question`: walk the transcript with a
`collecting_current_responses` flag; a `Question` matching
`current_question` turns the flag on and is skipped; while the flag is on,
an answer by someone other than `persona_name` is collected as
`"name: content"`; a `Question` different from `current_question` seen
while the flag is on stops the scan. -/
def collect_responses (pn cq : String) : Bool → List Msg → List String
  | _, [] => []
  | collecting, Msg.question c :: rest =>
      if c = cq then collect_responses pn cq true rest
      else if collecting then []
      else collect_responses pn cq collecting rest
  | collecting, Msg.answer n c :: rest =>
      if collecting then
        if n ≠ pn then (n ++ ": " ++ c) :: collect_responses pn cq collecting rest
        else collect_responses pn cq collecting rest
      else collect_responses pn cq collecting rest

/-- `responses_for_current_question` as computed inside
`transcript_to_persona_prompt` (the flag starts off). -/
def responses_for_current_question (pn cq : String) (t : List Msg) : List String :=
  collect_responses pn cq false t

/-- The specification-level predicate characterising the records the scan of
`transcript_to_persona_prompt` walks through once the matching question was
seen: answers, and re-occurrences of the same question; a different question
stops the scan. -/
def keep_scanning (cq : String) : Msg → Bool
  | Msg.question c => c = cq
  | Msg.answer _ _ => true

/-- The specification-level extraction of one peer line: an answer by someone
other than the requesting persona yields `"name: content"`, everything else
yields nothing. -/
def peer_line (pn : String) : Msg → Option String
  | Msg.question _ => none
  | Msg.answer n c => if n = pn then none else some (n ++ ": " ++ c)

/-- The author of an answer record, if any. -/
def answer_name : Msg → Option String
  | Msg.question _ => none
  | Msg.answer n _ => some n

/-- `transcript_to_persona_prompt(persona_name, persona_description,
current_question, transcript, topic=topic)`. -/
def transcript_to_persona_prompt (pn pdesc cq : String) (t : List Msg)
    (topic : String) : List ChatMsg :=
  let base := "You are " ++ pn ++ ".\nPersona details: " ++ pdesc
    ++ "\n\nInterview topic: " ++ topic
    ++ "\n\nCurrent question: " ++ cq ++ "\n\n"
  let rs := responses_for_current_question pn cq t
  let prompt :=
    if rs ≠ [] then
      base ++ "Other participants have already responded to this question:\n\n"
        ++ String.join (rs.map (fun r => r ++ "\n\n"))
        ++ "Please provide your answer, and feel free to react to what others have said after giving your own perspective.\n"
    else
      base ++ "You are the first to answer this question. Please provide your perspective.\n"
  [⟨"system", "You are in a group interview."⟩, ⟨"user", prompt⟩]

/-! ### Summarizer view (`transcript_to_string_message`) -/

/-- One transcript record rendered into the summarizer's single document. -/
def render_summary_msg : Msg → String
  | Msg.question c => "Facilitator: " ++ c ++ "\n\n"
  | Msg.answer n c =>
      if n ≠ "" then n ++ ": " ++ c ++ "\n\n" else "Assistant: " ++ c ++ "\n\n"

/-- `transcript_to_string_message(topic, transcript)`. -/
def transcript_to_string_message (topic : String) (t : List Msg) : List ChatMsg :=
  [⟨"system", "Analyze this interview transcript about: " ++ topic⟩,
   ⟨"user", "Interview Transcript:\n\n" ++ String.join (t.map render_summary_msg)⟩]

/-! ### Sentiment view (`create_sentiment_prompt`) -/

/-- An entry appended to `persona_responses[name]`: the question context
tracked by the scan (initially `None`) and the answer text. -/
structure QA where
  question : Option String
  response : String
  deriving DecidableEq, Repr

/-- Python `f"..."` interpolation of the question context: `None` renders as
the literal string `None`. -/
def pyOptStr : Option String → String
  | none => "None"
  | some s => s

/-- `persona_responses[p["name"]] = []` for each roster persona, preserving
dict insertion order and key uniqueness. -/
def dict_insert_empty (m : List (String × List QA)) (name : String) :
    List (String × List QA) :=
  if m.any (fun kv => kv.1 = name) then m else m ++ [(name, [])]

/-- `persona_responses[name].append(qa)` on the (unique) entry keyed `name`. -/
def dict_append (m : List (String × List QA)) (name : String) (qa : QA) :
    List (String × List QA) :=
  m.map (fun kv => if kv.1 = name then (kv.1, kv.2 ++ [qa]) else kv)

/-- The grouping scan of `create_sentiment_prompt`: track the most recent
question text; record each roster persona's answer under that persona keyed
by the tracked question. -/
def sentiment_scan : List Msg → Option String → List (String × List QA) →
    List (String × List QA)
  | [], _, m => m
  | Msg.question c :: rest, _, m => sentiment_scan rest (some c) m
  | Msg.answer n c :: rest, cur, m =>
      if m.any (fun kv => kv.1 = n) then
        sentiment_scan rest cur (dict_append m n ⟨cur, c⟩)
      else sentiment_scan rest cur m

/-- One recorded exchange rendered into the sentiment prompt. -/
def render_qa (qa : QA) : String :=
  "Question: " ++ pyOptStr qa.question ++ "\nResponse: " ++ qa.response ++ "\n\n"

/-- `create_sentiment_prompt(transcript, personas)`. -/
def create_sentiment_prompt (t : List Msg) (personas : List Persona) :
    List ChatMsg :=
  let m := sentiment_scan t none
    (personas.foldl (fun acc p => dict_insert_empty acc p.name) [])
  let prompt :=
    "Analyze the sentiment and key points from each persona in this interview:\n\n"
      ++ String.join (m.map (fun kv =>
           "## " ++ kv.1 ++ "\n" ++ String.join (kv.2.map render_qa)))
  [⟨"system", "You are a sentiment analysis expert."⟩, ⟨"user", prompt⟩]

/-! ### Markdown artifact (`transcript_to_markdown`) -/

/-- One transcript record rendered into the exported markdown document
(assistant records with an empty name are skipped). -/
def render_md_msg : Msg → String
  | Msg.question c => "**Facilitator:** " ++ c ++ "\n\n"
  | Msg.answer n c =>
      if n ≠ "" then "**" ++ n ++ ":** " ++ c ++ "\n\n" else ""

/-- One persona's sentiment block in the exported markdown document. -/
def render_md_sentiment (p : PersonaSentiment) : String :=
  "### " ++ p.name ++ " - " ++ p.sentiment ++ "\n\n**Summary:** " ++ p.summary
    ++ "\n\n**Key Points:**\n"
    ++ String.join (p.key_points.map (fun pt => "- " ++ pt ++ "\n")) ++ "\n"

/-- `transcript_to_markdown(transcript, topic, report, sentiment_analysis)`;
`datetime.now().strftime(...)` is abstracted as `today`. -/
def transcript_to_markdown (t : List Msg) (topic : String)
    (report : SummaryReport) (sentiment : SentimentAnalysis)
    (today : String) : String :=
  "# Interview Transcript: " ++ topic ++ "\n\n**Date:** " ++ today
    ++ "\n\n**Decision: " ++ report.go_or_no_go ++ "**\n\n"
    ++ "## Market Perspective\n\n" ++ report.market_perspective ++ "\n\n"
    ++ "## Key Rationale\n\n"
    ++ String.join (report.rationale.map (fun pt => "- " ++ pt ++ "\n")) ++ "\n"
    ++ "## Persona Sentiments\n\n"
    ++ String.join (sentiment.personas.map render_md_sentiment)
    ++ "## Full Transcript\n\n" ++ String.join (t.map render_md_msg)

/-! ### The interview loop (`run_interview`, orchestration part)

Mutable Python locals `transcript`, `followups_used`, `asked_questions`
become the fields of `InterviewState`. -/

/-- The loop state: the three session variables mutated by the `while` loop. -/
structure InterviewState where
  transcript : List Msg
  followups_used : Nat
  asked_questions : List String
  deriving DecidableEq, Repr

/-- The `for i, agent in enumerate(persona_agents)` loop: each persona in
roster order is shown the persona view over the transcript so far (which
already includes this round's earlier answers) and its answer is appended. -/
def ask_personas (answerOf : Persona → List ChatMsg → String)
    (topic q : String) : List Persona → List Msg → List Msg
  | [], t => t
  | p :: ps, t =>
      let resp := answerOf p (transcript_to_persona_prompt p.name p.description q t topic)
      ask_personas answerOf topic q ps (t ++ [Msg.answer p.name resp])

/-- Appending the question record, appending to `asked_questions`, and
collecting every persona's answer — the body of one round before the
follow-up bookkeeping. -/
def do_round (topic : String) (personas : List Persona)
    (answerOf : Persona → List ChatMsg → String) (q : String)
    (s : InterviewState) : InterviewState :=
  { transcript := ask_personas answerOf topic q personas
      (s.transcript ++ [Msg.question q]),
    followups_used := s.followups_used,
    asked_questions := s.asked_questions ++ [q] }

/-- `if fac_out.next_question not in core_questions: followups_used += 1`. -/
def track_followups (core : List String) (q : String) (s : InterviewState) :
    InterviewState :=
  if q ∈ core then s else { s with followups_used := s.followups_used + 1 }

/-- One full loop iteration after the facilitator chose to continue with
question `q`: run the round, then the follow-up bookkeeping. -/
def loop_step (topic : String) (core : List String) (personas : List Persona)
    (answerOf : Persona → List ChatMsg → String) (q : String)
    (s : InterviewState) : InterviewState :=
  track_followups core q (do_round topic personas answerOf q s)

/-- The `while True` loop of `run_interview`, with explicit fuel (`none`
signals fuel exhaustion; the termination theorems below show the canonical
fuel never runs out).  Each iteration: compose the facilitator view, invoke
the facilitator; stop if `should_end`; otherwise run the round and stop when
`followups_used >= max_followups or
len(asked_questions) >= len(core_questions) + max_followups`. -/
def run_loop (topic : String) (core : List String) (maxF : Nat)
    (personas : List Persona) (fac : List ChatMsg → FacOut)
    (answerOf : Persona → List ChatMsg → String) :
    Nat → InterviewState → Option InterviewState
  | 0, _ => none
  | fuel+1, s =>
      let out := fac (transcript_to_facilitator_prompt topic s.transcript core s.asked_questions)
      if out.should_end then some s
      else
        let s₂ := loop_step topic core personas answerOf out.next_question s
        if maxF ≤ s₂.followups_used ∨ core.length + maxF ≤ s₂.asked_questions.length
        then some s₂
        else run_loop topic core maxF personas fac answerOf fuel s₂

/-- The loop started on the empty session, with enough fuel for every
possible execution (the stop condition bounds the rounds by
`core.length + maxF`, see the termination theorem). -/
def run_interview_loop (topic : String) (personas : List Persona)
    (core : List String) (maxF : Nat) (fac : List ChatMsg → FacOut)
    (answerOf : Persona → List ChatMsg → String) : Option InterviewState :=
  run_loop topic core maxF personas fac answerOf (core.length + maxF + 1) ⟨[], 0, []⟩

/-! ### Analysis stage and full interview run -/

/-- The result dict returned by `run_interview`; the saved transcript file is
represented by its rendered markdown content (file writing is an adapter). -/
structure InterviewResult where
  topic : String
  report : SummaryReport
  sentiment : SentimentAnalysis
  markdown : String
  deriving DecidableEq, Repr

/-- `run_interview(topic, personas, core_questions, max_followups)` with the
generation backend passed in: run the loop, then the sentiment extraction,
then the summary extraction, then render the artifact. -/
def run_interview (topic : String) (personas : List Persona)
    (core : List String) (maxF : Nat) (fac : List ChatMsg → FacOut)
    (answerOf : Persona → List ChatMsg → String)
    (sentimentOf : List ChatMsg → SentimentAnalysis)
    (summarizeOf : List ChatMsg → SummaryReport) (today : String) :
    Option InterviewResult :=
  match run_interview_loop topic personas core maxF fac answerOf with
  | none => none
  | some s =>
      let sentiment := sentimentOf (create_sentiment_prompt s.transcript personas)
      let report := summarizeOf (transcript_to_string_message topic s.transcript)
      some ⟨topic, report, sentiment,
        transcript_to_markdown s.transcript topic report sentiment today⟩

/-! ### Schema validation of the sentiment output

The generation backend's structured output is validated against the
`SentimentAnalysis` pydantic model.  `decodeSentimentAnalysis` is that
validation: a JSON object must carry a `personas` array whose every element
is an object with string fields `name`, `sentiment`, `summary` and a
string-array field `key_points`.  Nothing else is checked — in particular
nothing relates the entries to the interview roster. -/

/-- A JSON value, the wire format of the backend's structured output. -/
inductive Json where
  | null
  | bool (b : Bool)
  | num (n : Int)
  | str (s : String)
  | arr (elems : List Json)
  | obj (fields : List (String × Json))

/-- First field with the given key, as in JSON-object lookup. -/
def lookupField : List (String × Json) → String → Option Json
  | [], _ => none
  | kv :: rest, key => if kv.1 = key then some kv.2 else lookupField rest key

/-- Object field access; fails on non-objects and missing keys. -/
def Json.getField : Json → String → Option Json
  | Json.obj fields, key => lookupField fields key
  | _, _ => none

/-- A string field, as validated by a pydantic `str` annotation. -/
def Json.asString : Json → Option String
  | Json.str s => some s
  | _ => none

/-- An array field, as validated by a pydantic `List[...]` annotation. -/
def Json.asArray : Json → Option (List Json)
  | Json.arr elems => some elems
  | _ => none

/-- Validation of a `List[str]` field: every element must be a string. -/
def decodeStringList : List Json → Option (List String)
  | [] => some []
  | j :: rest =>
      match j.asString with
      | none => none
      | some s =>
          match decodeStringList rest with
          | none => none
          | some l => some (s :: l)

/-- Validation of one `PersonaSentiment` object. -/
def decodePersonaSentiment (j : Json) : Option PersonaSentiment := do
  let name ← (← j.getField "name").asString
  let sentiment ← (← j.getField "sentiment").asString
  let kps ← (← j.getField "key_points").asArray
  let key_points ← decodeStringList kps
  let summary ← (← j.getField "summary").asString
  pure ⟨name, sentiment, key_points, summary⟩

/-- Validation of a `List[PersonaSentiment]` field. -/
def decodeSentimentList : List Json → Option (List PersonaSentiment)
  | [] => some []
  | j :: rest =>
      match decodePersonaSentiment j with
      | none => none
      | some p =>
          match decodeSentimentList rest with
          | none => none
          | some l => some (p :: l)

/-- Validation of a whole `SentimentAnalysis` output. -/
def decodeSentimentAnalysis (j : Json) : Option SentimentAnalysis := do
  let ps ← (← j.getField "personas").asArray
  let entries ← decodeSentimentList ps
  pure ⟨entries⟩

/-- A well-formed wire encoding of one `PersonaSentiment` entry. -/
def encodePersonaSentiment (p : PersonaSentiment) : Json :=
  Json.obj [("name", Json.str p.name), ("sentiment", Json.str p.sentiment),
    ("key_points", Json.arr (p.key_points.map Json.str)),
    ("summary", Json.str p.summary)]

/-- A well-formed wire encoding of a `SentimentAnalysis` output. -/
def encodeSentimentAnalysis (entries : List PersonaSentiment) : Json :=
  Json.obj [("personas", Json.arr (entries.map encodePersonaSentiment))]

/-! ### Fallible model and the batch driver (`run_batch_interviews`)

For the batch driver the generation capability may fail; a Python exception
raised by any backend call propagates out of `run_interview` (no local
recovery, no retry) and out of the `for` loop of `run_batch_interviews`.
The `Except String` model mirrors exactly that propagation. -/

/-- The persona-answer collection with a fallible backend: the first failing
invocation aborts the round (no partial answer is committed for it). -/
def ask_personasE (answerE : Persona → List ChatMsg → Except String String)
    (topic q : String) : List Persona → List Msg → Except String (List Msg)
  | [], t => Except.ok t
  | p :: ps, t =>
      match answerE p (transcript_to_persona_prompt p.name p.description q t topic) with
      | Except.error e => Except.error e
      | Except.ok resp => ask_personasE answerE topic q ps (t ++ [Msg.answer p.name resp])

/-- The `while True` loop with a fallible backend; `Except.ok none` signals
fuel exhaustion (provably unreachable from the canonical entry, see
`run_loopE_ne_none`). -/
def run_loopE (topic : String) (core : List String) (maxF : Nat)
    (personas : List Persona) (facE : List ChatMsg → Except String FacOut)
    (answerE : Persona → List ChatMsg → Except String String) :
    Nat → InterviewState → Except String (Option InterviewState)
  | 0, _ => Except.ok none
  | fuel+1, s =>
      match facE (transcript_to_facilitator_prompt topic s.transcript core s.asked_questions) with
      | Except.error e => Except.error e
      | Except.ok out =>
        if out.should_end then Except.ok (some s)
        else
          match ask_personasE answerE topic out.next_question personas
              (s.transcript ++ [Msg.question out.next_question]) with
          | Except.error e => Except.error e
          | Except.ok t₂ =>
            let s₂ := track_followups core out.next_question
              { transcript := t₂, followups_used := s.followups_used,
                asked_questions := s.asked_questions ++ [out.next_question] }
            if maxF ≤ s₂.followups_used ∨ core.length + maxF ≤ s₂.asked_questions.length
            then Except.ok (some s₂)
            else run_loopE topic core maxF personas facE answerE fuel s₂

/-- `run_interview` with fallible backends: any failure in the loop, the
sentiment extraction or the summary extraction propagates; on success the
artifact is rendered and persisted. -/
def run_interviewE (topic : String) (personas : List Persona)
    (core : List String) (maxF : Nat)
    (facE : List ChatMsg → Except String FacOut)
    (answerE : Persona → List ChatMsg → Except String String)
    (sentimentE : List ChatMsg → Except String SentimentAnalysis)
    (summarizeE : List ChatMsg → Except String SummaryReport)
    (today : String) : Except String (Option InterviewResult) :=
  match run_loopE topic core maxF personas facE answerE (core.length + maxF + 1) ⟨[], 0, []⟩ with
  | Except.error e => Except.error e
  | Except.ok none => Except.ok none
  | Except.ok (some s) =>
      match sentimentE (create_sentiment_prompt s.transcript personas) with
      | Except.error e => Except.error e
      | Except.ok sentiment =>
        match summarizeE (transcript_to_string_message topic s.transcript) with
        | Except.error e => Except.error e
        | Except.ok report =>
            Except.ok (some ⟨topic, report, sentiment,
              transcript_to_markdown s.transcript topic report sentiment today⟩)

/-- One `(topic, core_questions)` pair of a batch configuration. -/
structure Feature where
  topic : String
  core_questions : List String
  deriving DecidableEq, Repr

/-- The console header `run_batch_interviews` prints before interview `i` of
`n`: `f"Interview \x7bi\x7d/\x7bn\x7d: \x7btopic\x7d"`. -/
def batch_header (i n : Nat) (topic : String) : String :=
  "Interview " ++ toString i ++ "/" ++ toString n ++ ": " ++ topic

/-- The headers printed for a run of consecutive features starting at
1-based index `i`. -/
def batch_headers (n : Nat) : Nat → List Feature → List String
  | _, [] => []
  | i, f :: fs => batch_header i n f.topic :: batch_headers n (i+1) fs

/-- Observable side effects of a batch run: the console header lines printed
before each interview, and the artifacts persisted by completed interviews
(persisted artifacts survive a later failure). -/
structure BatchTrace where
  headers : List String
  saved : List InterviewResult
  deriving DecidableEq, Repr

/-- The `for i, feature in enumerate(features, 1)` loop of
`run_batch_interviews`: print the header, run the interview; a failure
propagates immediately (halting the batch, keeping what was already
persisted); on success record the result and continue with the next
feature. -/
def run_batch_go (personas : List Persona) (maxF : Nat)
    (facE : List ChatMsg → Except String FacOut)
    (answerE : Persona → List ChatMsg → Except String String)
    (sentimentE : List ChatMsg → Except String SentimentAnalysis)
    (summarizeE : List ChatMsg → Except String SummaryReport)
    (today : String) (n : Nat) :
    List Feature → Nat → List InterviewResult → BatchTrace →
      BatchTrace × Except String (List InterviewResult)
  | [], _, results, tr => (tr, Except.ok results)
  | f :: rest, i, results, tr =>
      let tr₁ : BatchTrace :=
        { tr with headers := tr.headers ++ [batch_header i n f.topic] }
      match run_interviewE f.topic personas f.core_questions maxF
          facE answerE sentimentE summarizeE today with
      | Except.error e => (tr₁, Except.error e)
      | Except.ok none => (tr₁, Except.error "internal: interview produced no result")
      | Except.ok (some r) =>
          run_batch_go personas maxF facE answerE sentimentE summarizeE today n
            rest (i+1) (results ++ [r]) { tr₁ with saved := tr₁.saved ++ [r] }

/-- `run_batch_interviews(features, personas, max_followups)`: interviews run
strictly sequentially in list order, starting from header index 1 with an
empty results list and a blank trace. -/
def run_batch_interviews (features : List Feature) (personas : List Persona)
    (maxF : Nat) (facE : List ChatMsg → Except String FacOut)
    (answerE : Persona → List ChatMsg → Except String String)
    (sentimentE : List ChatMsg → Except String SentimentAnalysis)
    (summarizeE : List ChatMsg → Except String SummaryReport)
    (today : String) : BatchTrace × Except String (List InterviewResult) :=
  run_batch_go personas maxF facE answerE sentimentE summarizeE today
    features.length features 1 [] ⟨[], []⟩

/-! ### Helper lemmas about one loop iteration -/

theorem ask_personas_length (answerOf : Persona → List ChatMsg → String)
    (topic q : String) :
    ∀ (ps : List Persona) (t : List Msg),
      (ask_personas answerOf topic q ps t).length = t.length + ps.length := by
  intro ps
  induction ps with
  | nil => intro t; simp [ask_personas]
  | cons p ps ih =>
      intro t
      simp only [ask_personas]
      rw [ih]
      simp only [List.length_append, List.length_cons, List.length_nil]
      omega

theorem track_followups_transcript (core : List String) (q : String)
    (s : InterviewState) : (track_followups core q s).transcript = s.transcript := by
  unfold track_followups; split <;> rfl

theorem track_followups_asked (core : List String) (q : String)
    (s : InterviewState) :
    (track_followups core q s).asked_questions = s.asked_questions := by
  unfold track_followups; split <;> rfl

theorem track_followups_mono (core : List String) (q : String)
    (s : InterviewState) :
    s.followups_used ≤ (track_followups core q s).followups_used := by
  unfold track_followups; split <;> simp

theorem track_followups_le (core : List String) (q : String)
    (s : InterviewState) :
    (track_followups core q s).followups_used ≤ s.followups_used + 1 := by
  unfold track_followups; split <;> simp

theorem loop_step_asked (topic : String) (core : List String)
    (personas : List Persona) (answerOf : Persona → List ChatMsg → String)
    (q : String) (s : InterviewState) :
    (loop_step topic core personas answerOf q s).asked_questions =
      s.asked_questions ++ [q] := by
  simp [loop_step, track_followups_asked, do_round]

theorem loop_step_transcript_length (topic : String) (core : List String)
    (personas : List Persona) (answerOf : Persona → List ChatMsg → String)
    (q : String) (s : InterviewState) :
    (loop_step topic core personas answerOf q s).transcript.length =
      s.transcript.length + 1 + personas.length := by
  simp [loop_step, track_followups_transcript, do_round, ask_personas_length]

theorem loop_step_followups_le (topic : String) (core : List String)
    (personas : List Persona) (answerOf : Persona → List ChatMsg → String)
    (q : String) (s : InterviewState) :
    (loop_step topic core personas answerOf q s).followups_used ≤
      s.followups_used + 1 :=
  track_followups_le core q (do_round topic personas answerOf q s)

theorem loop_step_followups_mono (topic : String) (core : List String)
    (personas : List Persona) (answerOf : Persona → List ChatMsg → String)
    (q : String) (s : InterviewState) :
    s.followups_used ≤ (loop_step topic core personas answerOf q s).followups_used :=
  track_followups_mono core q (do_round topic personas answerOf q s)

/-- Fuel sufficiency and counter bounds for the interview loop: started from a
state whose round count is below `core.length + maxF` and whose follow-up
counter is below `maxF` (or still zero), the loop reaches its stop condition
within the given fuel, the final round count stays at most
`core.length + maxF`, and the final follow-up counter stays at most
`max maxF 1` (at most `maxF` whenever `maxF ≥ 1`). -/
theorem run_loop_bounds (topic : String) (core : List String) (maxF : Nat)
    (personas : List Persona) (fac : List ChatMsg → FacOut)
    (answerOf : Persona → List ChatMsg → String) :
    ∀ fuel (s : InterviewState),
      core.length + maxF - s.asked_questions.length < fuel →
      s.asked_questions.length < core.length + maxF →
      (s.followups_used < maxF ∨ s.followups_used = 0) →
      ∃ s₂, run_loop topic core maxF personas fac answerOf fuel s = some s₂ ∧
        s₂.asked_questions.length ≤ core.length + maxF ∧
        s₂.followups_used ≤ max maxF 1 ∧
        (1 ≤ maxF → s₂.followups_used ≤ maxF) := by
  intro fuel
  induction fuel with
  | zero => intro s h1 h2 h3; omega
  | succ f ih =>
      intro s h1 h2 h3
      by_cases hend : (fac (transcript_to_facilitator_prompt topic s.transcript core s.asked_questions)).should_end = true
      · have heq : run_loop topic core maxF personas fac answerOf (f+1) s = some s := by
          simp [run_loop, hend]
        exact ⟨s, heq, by omega, by omega, by intro hm; omega⟩
      · have hasked := loop_step_asked topic core personas answerOf
          (fac (transcript_to_facilitator_prompt topic s.transcript core s.asked_questions)).next_question s
        have hfle := loop_step_followups_le topic core personas answerOf
          (fac (transcript_to_facilitator_prompt topic s.transcript core s.asked_questions)).next_question s
        have halen : (loop_step topic core personas answerOf
            (fac (transcript_to_facilitator_prompt topic s.transcript core s.asked_questions)).next_question s).asked_questions.length =
            s.asked_questions.length + 1 := by
          rw [hasked]; simp
        by_cases hstop : maxF ≤ (loop_step topic core personas answerOf
            (fac (transcript_to_facilitator_prompt topic s.transcript core s.asked_questions)).next_question s).followups_used ∨
            core.length + maxF ≤ (loop_step topic core personas answerOf
            (fac (transcript_to_facilitator_prompt topic s.transcript core s.asked_questions)).next_question s).asked_questions.length
        · have heq : run_loop topic core maxF personas fac answerOf (f+1) s =
              some (loop_step topic core personas answerOf
                (fac (transcript_to_facilitator_prompt topic s.transcript core s.asked_questions)).next_question s) := by
            simp [run_loop, hend, hstop]
          exact ⟨_, heq, by omega, by omega, by intro hm; omega⟩
        · have heq : run_loop topic core maxF personas fac answerOf (f+1) s =
              run_loop topic core maxF personas fac answerOf f
                (loop_step topic core personas answerOf
                  (fac (transcript_to_facilitator_prompt topic s.transcript core s.asked_questions)).next_question s) := by
            simp [run_loop, hend, hstop]
          rw [heq]
          exact ih _ (by omega) (by omega) (by omega)
theorem run_loop_preserves_record_count (topic : String) (core : List String)
    (maxF : Nat) (personas : List Persona) (fac : List ChatMsg → FacOut)
    (answerOf : Persona → List ChatMsg → String) :
    ∀ fuel (s s₂ : InterviewState),
      run_loop topic core maxF personas fac answerOf fuel s = some s₂ →
      s.transcript.length = s.asked_questions.length * (1 + personas.length) →
      s₂.transcript.length = s₂.asked_questions.length * (1 + personas.length) := by
  intro fuel
  induction fuel with
  | zero => intro s s₂ h _; simp [run_loop] at h
  | succ f ih =>
      intro s s₂ h hinv
      by_cases hend : (fac (transcript_to_facilitator_prompt topic s.transcript core s.asked_questions)).should_end = true
      · have heq : run_loop topic core maxF personas fac answerOf (f+1) s = some s := by
          simp [run_loop, hend]
        rw [heq] at h
        injection h with h
        rw [← h]
        exact hinv
      · have hstep : (loop_step topic core personas answerOf
            (fac (transcript_to_facilitator_prompt topic s.transcript core s.asked_questions)).next_question s).transcript.length =
            (loop_step topic core personas answerOf
            (fac (transcript_to_facilitator_prompt topic s.transcript core s.asked_questions)).next_question s).asked_questions.length * (1 + personas.length) := by
          rw [loop_step_transcript_length, loop_step_asked, hinv]
          simp only [List.length_append, List.length_cons, List.length_nil, Nat.zero_add]
          rw [Nat.add_mul, Nat.one_mul]
          omega
        by_cases hstop : maxF ≤ (loop_step topic core personas answerOf
            (fac (transcript_to_facilitator_prompt topic s.transcript core s.asked_questions)).next_question s).followups_used ∨
            core.length + maxF ≤ (loop_step topic core personas answerOf
            (fac (transcript_to_facilitator_prompt topic s.transcript core s.asked_questions)).next_question s).asked_questions.length
        · have heq : run_loop topic core maxF personas fac answerOf (f+1) s =
              some (loop_step topic core personas answerOf
                (fac (transcript_to_facilitator_prompt topic s.transcript core s.asked_questions)).next_question s) := by
            simp [run_loop, hend, hstop]
          rw [heq] at h
          injection h with h
          rw [← h]
          exact hstep
        · have heq : run_loop topic core maxF personas fac answerOf (f+1) s =
              run_loop topic core maxF personas fac answerOf f
                (loop_step topic core personas answerOf
                  (fac (transcript_to_facilitator_prompt topic s.transcript core s.asked_questions)).next_question s) := by
            simp [run_loop, hend, hstop]
          rw [heq] at h
          exact ih _ _ h hstep
/-! ### Characterisation of the persona-view scan -/

theorem collect_responses_true (pn cq : String) :
    ∀ t : List Msg, collect_responses pn cq true t =
      (t.takeWhile (keep_scanning cq)).filterMap (peer_line pn) := by
  intro t
  induction t with
  | nil => rfl
  | cons m rest ih =>
      cases m with
      | question c =>
          by_cases h : c = cq
          · simp [collect_responses, h, keep_scanning, ih, peer_line]
          · simp [collect_responses, h, keep_scanning]
      | answer n c =>
          by_cases h : n = pn
          · simp [collect_responses, h, keep_scanning, ih, peer_line]
          · simp [collect_responses, h, keep_scanning, ih, peer_line]

theorem collect_responses_false_append (pn cq : String) :
    ∀ (t₁ : List Msg), Msg.question cq ∉ t₁ → ∀ u : List Msg,
      collect_responses pn cq false (t₁ ++ Msg.question cq :: u) =
        collect_responses pn cq true u := by
  intro t₁
  induction t₁ with
  | nil => intro _ u; simp [collect_responses]
  | cons m rest ih =>
      intro hnotin u
      have hrest : Msg.question cq ∉ rest := fun hmem =>
        hnotin (List.mem_cons_of_mem m hmem)
      cases m with
      | question c =>
          have hc : ¬ c = cq := by
            intro hc
            exact hnotin (by rw [hc]; exact List.mem_cons_self _ _)
          simp [collect_responses, hc, ih hrest u]
      | answer n c => simp [collect_responses, ih hrest u]

theorem collect_responses_false_split (pn cq : String) :
    ∀ t : List Msg,
      collect_responses pn cq false t = [] ∨
      ∃ t₁ u, t = t₁ ++ Msg.question cq :: u ∧ Msg.question cq ∉ t₁ ∧
        collect_responses pn cq false t = collect_responses pn cq true u := by
  intro t
  induction t with
  | nil => exact Or.inl rfl
  | cons m rest ih =>
      cases m with
      | question c =>
          by_cases h : c = cq
          · refine Or.inr ⟨[], rest, by simp [h], by simp, ?_⟩
            simp [collect_responses, h]
          · rcases ih with h0 | ⟨t₁, u, heq, hnotin, hval⟩
            · exact Or.inl (by simp [collect_responses, h, h0])
            · refine Or.inr ⟨Msg.question c :: t₁, u, by simp [heq], ?_, ?_⟩
              · intro hmem
                rcases List.mem_cons.mp hmem with hx | hx
                · exact h (by injection hx.symm)
                · exact hnotin hx
              · simp [collect_responses, h, hval]
      | answer n c =>
          rcases ih with h0 | ⟨t₁, u, heq, hnotin, hval⟩
          · exact Or.inl (by simp [collect_responses, h0])
          · refine Or.inr ⟨Msg.answer n c :: t₁, u, by simp [heq], ?_, ?_⟩
            · intro hmem
              rcases List.mem_cons.mp hmem with hx | hx
              · exact Msg.noConfusion hx
              · exact hnotin hx
            · simp [collect_responses, hval]

theorem mem_collect_true (pn cq : String) (u : List Msg) (x : String)
    (hx : x ∈ collect_responses pn cq true u) :
    ∃ n c t₂ t₃, x = n ++ ": " ++ c ∧ n ≠ pn ∧
      u = t₂ ++ Msg.answer n c :: t₃ ∧
      (∀ q, Msg.question q ∈ t₂ → q = cq) := by
  rw [collect_responses_true] at hx
  rcases List.mem_filterMap.mp hx with ⟨m, hm, hpeer⟩
  rcases List.append_of_mem hm with ⟨v, w, hvw⟩
  rcases List.takeWhile_prefix (l := u) (p := keep_scanning cq) with ⟨rest, hrest⟩
  cases m with
  | question c => simp [peer_line] at hpeer
  | answer n c =>
      have hn : n ≠ pn := by
        by_cases h : n = pn
        · simp [peer_line, h] at hpeer
        · exact h
      have hxval : x = n ++ ": " ++ c := by
        simp [peer_line, hn] at hpeer
        exact hpeer.symm
      refine ⟨n, c, v, w ++ rest, hxval, hn, ?_, ?_⟩
      · rw [← hrest, hvw]
        simp
      · intro q hq
        have hv_in : Msg.question q ∈ u.takeWhile (keep_scanning cq) := by
          rw [hvw]; exact List.mem_append_left _ hq
        have hkeep := List.mem_takeWhile_imp hv_in
        simpa [keep_scanning] using hkeep

/-! ### Round decomposition helpers -/

theorem ask_personas_decomp (answerOf : Persona → List ChatMsg → String)
    (topic q : String) :
    ∀ (ps : List Persona) (t : List Msg), ∃ contents : List String,
      contents.length = ps.length ∧
      ask_personas answerOf topic q ps t =
        t ++ List.zipWith (fun p c => Msg.answer p.name c) ps contents := by
  intro ps
  induction ps with
  | nil => intro t; exact ⟨[], rfl, by simp [ask_personas]⟩
  | cons p ps ih =>
      intro t
      rcases ih (t ++ [Msg.answer p.name (answerOf p (transcript_to_persona_prompt p.name p.description q t topic))]) with ⟨cs, hlen, heq⟩
      refine ⟨answerOf p (transcript_to_persona_prompt p.name p.description q t topic) :: cs, by simp [hlen], ?_⟩
      simp only [ask_personas, heq, List.zipWith]
      simp

theorem zipWith_answer_names :
    ∀ (ps : List Persona) (cs : List String), cs.length = ps.length →
      (List.zipWith (fun p c => Msg.answer p.name c) ps cs).filterMap answer_name =
        ps.map Persona.name := by
  intro ps
  induction ps with
  | nil => intro cs _; simp
  | cons p ps ih =>
      intro cs h
      cases cs with
      | nil => simp at h
      | cons c cs =>
          simp only [List.zipWith, List.filterMap_cons, answer_name, List.map_cons]
          rw [ih cs (by simpa using h)]

theorem zipWith_answer_shape :
    ∀ (ps : List Persona) (cs : List String) (m : Msg),
      m ∈ List.zipWith (fun p c => Msg.answer p.name c) ps cs →
      ∃ nm c, m = Msg.answer nm c := by
  intro ps
  induction ps with
  | nil => intro cs m hm; simp at hm
  | cons p ps ih =>
      intro cs m hm
      cases cs with
      | nil => simp at hm
      | cons c cs =>
          rcases List.mem_cons.mp hm with h | h
          · exact ⟨p.name, c, h⟩
          · exact ih cs m h

/-! ### Facilitator window helpers -/

theorem fac_recent_suffix (t : List Msg) : fac_recent t <:+ t := by
  unfold fac_recent
  split
  · exact List.drop_suffix _ _
  · exact List.suffix_refl t

theorem fac_recent_length_le (t : List Msg) : (fac_recent t).length ≤ 20 := by
  by_cases h : t.length > 20
  · simp [fac_recent, h]
    omega
  · simp [fac_recent, h]
    omega

/-! ### Fuel sufficiency for the fallible loop and the batch unfolding -/

theorem run_loopE_ne_none (topic : String) (core : List String) (maxF : Nat)
    (personas : List Persona) (facE : List ChatMsg → Except String FacOut)
    (answerE : Persona → List ChatMsg → Except String String) :
    ∀ fuel (s : InterviewState),
      core.length + maxF - s.asked_questions.length < fuel →
      run_loopE topic core maxF personas facE answerE fuel s ≠ Except.ok none := by
  intro fuel
  induction fuel with
  | zero => intro s h; omega
  | succ f ih =>
      intro s h
      cases hfac : facE (transcript_to_facilitator_prompt topic s.transcript core s.asked_questions) with
      | error e => simp [run_loopE, hfac]
      | ok out =>
          by_cases hend : out.should_end = true
          · simp [run_loopE, hfac, hend]
          · cases hask : ask_personasE answerE topic out.next_question personas
                (s.transcript ++ [Msg.question out.next_question]) with
            | error e => simp [run_loopE, hfac, hend, hask]
            | ok t₂ =>
                by_cases hstop : maxF ≤ (track_followups core out.next_question
                    { transcript := t₂, followups_used := s.followups_used,
                      asked_questions := s.asked_questions ++ [out.next_question] }).followups_used ∨
                    core.length + maxF ≤ (track_followups core out.next_question
                    { transcript := t₂, followups_used := s.followups_used,
                      asked_questions := s.asked_questions ++ [out.next_question] }).asked_questions.length
                · simp [run_loopE, hfac, hend, hask, hstop]
                · have heq : run_loopE topic core maxF personas facE answerE (f+1) s =
                      run_loopE topic core maxF personas facE answerE f
                        (track_followups core out.next_question
                          { transcript := t₂, followups_used := s.followups_used,
                            asked_questions := s.asked_questions ++ [out.next_question] }) := by
                    simp [run_loopE, hfac, hend, hask, hstop]
                  rw [heq]
                  apply ih
                  have hlen : (track_followups core out.next_question
                      { transcript := t₂, followups_used := s.followups_used,
                        asked_questions := s.asked_questions ++ [out.next_question] }).asked_questions.length =
                      s.asked_questions.length + 1 := by
                    rw [track_followups_asked]
                    simp
                  omega

theorem run_interviewE_ne_ok_none (topic : String) (personas : List Persona)
    (core : List String) (maxF : Nat)
    (facE : List ChatMsg → Except String FacOut)
    (answerE : Persona → List ChatMsg → Except String String)
    (sentimentE : List ChatMsg → Except String SentimentAnalysis)
    (summarizeE : List ChatMsg → Except String SummaryReport)
    (today : String) :
    run_interviewE topic personas core maxF facE answerE sentimentE summarizeE today ≠
      Except.ok none := by
  have hne := run_loopE_ne_none topic core maxF personas facE answerE
    (core.length + maxF + 1) ⟨[], 0, []⟩ (by simp)
  unfold run_interviewE
  cases hloop : run_loopE topic core maxF personas facE answerE (core.length + maxF + 1) ⟨[], 0, []⟩ with
  | error e => simp
  | ok os =>
      cases os with
      | none => exact absurd hloop hne
      | some s =>
          cases hs : sentimentE (create_sentiment_prompt s.transcript personas) with
          | error e => simp [hs]
          | ok sentiment =>
              cases hr : summarizeE (transcript_to_string_message topic s.transcript) with
              | error e => simp [hs, hr]
              | ok report => simp [hs, hr]

theorem run_batch_go_spec (personas : List Persona) (maxF : Nat)
    (facE : List ChatMsg → Except String FacOut)
    (answerE : Persona → List ChatMsg → Except String String)
    (sentimentE : List ChatMsg → Except String SentimentAnalysis)
    (summarizeE : List ChatMsg → Except String SummaryReport)
    (today : String) (n : Nat) (f : Feature) (post : List Feature) (e : String)
    (hf : run_interviewE f.topic personas f.core_questions maxF facE answerE
      sentimentE summarizeE today = Except.error e) :
    ∀ (pre : List Feature) (rs : List InterviewResult),
      List.Forall₂ (fun g r => run_interviewE g.topic personas g.core_questions maxF
        facE answerE sentimentE summarizeE today = Except.ok (some r)) pre rs →
      ∀ (i : Nat) (results : List InterviewResult) (tr : BatchTrace),
        run_batch_go personas maxF facE answerE sentimentE summarizeE today n
            (pre ++ f :: post) i results tr =
          ({ headers := tr.headers ++ batch_headers n i (pre ++ [f]),
             saved := tr.saved ++ rs }, Except.error e) := by
  intro pre rs hpre
  induction hpre with
  | nil =>
      intro i results tr
      simp only [List.nil_append, run_batch_go, hf, batch_headers]
      simp
  | @cons g r pre rs hgr hrest ih =>
      intro i results tr
      simp only [List.cons_append, run_batch_go, hgr, List.append_eq]
      rw [ih]
      simp [batch_headers, List.append_assoc]

/-- C1, counterexample: with the non-empty core question list `["Q1"]`,
`max_followups = 0` and a facilitator that keeps the interview going with the
follow-up question `"X"`, the loop terminates with `followups_used = 1`,
which exceeds `max_followups = 0` — refuting \"followupsUsed is bounded by
maxFollowups\" as stated. -/
theorem followups_bound_counterexample :
    (run_interview_loop "T" [⟨"Alice", "d"⟩] ["Q1"] 0
        (fun _ => ⟨"X", false⟩) (fun _ _ => "ok")).map InterviewState.followups_used =
      some 1 ∧ ¬ (1 ≤ (0 : Nat)) :=
  ⟨rfl, by decide⟩

/-- C1, amended: for every non-empty core question list and any facilitator
and persona behaviour, `followups_used` only ever increases at the single
bookkeeping site (monotone non-decreasing), the loop terminates (the fuel
`core.length + maxF + 1` is reached by `some` and the number of completed
rounds `asked_questions.length` is at most `core.length + maxF`), and
`followups_used` is bounded by `max maxF 1` — by `maxF` itself whenever
`maxF ≥ 1`; with `maxF = 0` it can reach `1`, as the counterexample shows. -/
theorem interview_loop_termination_and_bounds (topic : String) (core : List String)
    (maxF : Nat) (personas : List Persona) (fac : List ChatMsg → FacOut)
    (answerOf : Persona → List ChatMsg → String) (hcore : core ≠ []) :
    (∀ (s : InterviewState) (q : String),
      s.followups_used ≤ (track_followups core q s).followups_used) ∧
    ∃ s, run_interview_loop topic personas core maxF fac answerOf = some s ∧
      s.asked_questions.length ≤ core.length + maxF ∧
      s.followups_used ≤ max maxF 1 ∧
      (1 ≤ maxF → s.followups_used ≤ maxF) := by
  constructor
  · intro s q; exact track_followups_mono core q s
  · have hlen : 1 ≤ core.length := by
      cases core with
      | nil => exact absurd rfl hcore
      | cons a l => simp
    unfold run_interview_loop
    exact run_loop_bounds topic core maxF personas fac answerOf
      (core.length + maxF + 1) ⟨[], 0, []⟩ (by simp) (by simp; omega) (by simp)

/-- Witness for C1 amended at the concrete run with core `["Q1"]`,
`maxF = 2`, one persona, and a facilitator always asking `"Q1"`. -/
theorem interview_loop_termination_and_bounds_witness :
    (∀ (s : InterviewState) (q : String),
      s.followups_used ≤ (track_followups ["Q1"] q s).followups_used) ∧
    ∃ s, run_interview_loop "T" [⟨"Alice", "d"⟩] ["Q1"] 2
        (fun _ => ⟨"Q1", false⟩) (fun _ _ => "ok") = some s ∧
      s.asked_questions.length ≤ (["Q1"] : List String).length + 2 ∧
      s.followups_used ≤ max 2 1 ∧
      (1 ≤ 2 → s.followups_used ≤ 2) :=
  interview_loop_termination_and_bounds "T" ["Q1"] 2 [⟨"Alice", "d"⟩]
    (fun _ => ⟨"Q1", false⟩) (fun _ _ => "ok") (by simp)

/-- C9: with `max_followups = 0`, whenever the facilitator does not end the
interview on its first invocation, the loop executes exactly one round
(one asked question, `1 + roster` transcript records) and then terminates,
for every core-question list — the stop condition
`followups_used >= max_followups` already holds at `0 ≥ 0`. -/
theorem max_followups_zero_single_round (topic : String) (personas : List Persona)
    (core : List String) (fac : List ChatMsg → FacOut)
    (answerOf : Persona → List ChatMsg → String)
    (h : (fac (transcript_to_facilitator_prompt topic [] core [])).should_end = false) :
    ∃ s, run_interview_loop topic personas core 0 fac answerOf = some s ∧
      s.asked_questions.length = 1 ∧
      s.transcript.length = 1 + personas.length := by
  unfold run_interview_loop
  have hend : ¬ ((fac (transcript_to_facilitator_prompt topic
      ((⟨[], 0, []⟩ : InterviewState)).transcript core
      ((⟨[], 0, []⟩ : InterviewState)).asked_questions)).should_end = true) := by
    simpa using h
  have heq : run_loop topic core 0 personas fac answerOf (core.length + 0 + 1) ⟨[], 0, []⟩ =
      some (loop_step topic core personas answerOf
        (fac (transcript_to_facilitator_prompt topic [] core [])).next_question ⟨[], 0, []⟩) := by
    simp [run_loop, hend]
  refine ⟨_, heq, ?_, ?_⟩
  · rw [loop_step_asked]; simp
  · rw [loop_step_transcript_length]; simp

/-- Witness for C9 at a facilitator that asks `"F"` with two core questions
remaining. -/
theorem max_followups_zero_single_round_witness :
    ∃ s, run_interview_loop "T" [⟨"P", "d"⟩] ["A", "B"] 0
        (fun _ => ⟨"F", false⟩) (fun _ _ => "ok") = some s ∧
      s.asked_questions.length = 1 ∧
      s.transcript.length = 1 + ([⟨"P", "d"⟩] : List Persona).length :=
  max_followups_zero_single_round "T" [⟨"P", "d"⟩] ["A", "B"]
    (fun _ => ⟨"F", false⟩) (fun _ _ => "ok") rfl

/-- C7: if the facilitator returns `should_end = true` on its first
invocation, the loop terminates with no question recorded and an empty
transcript (zero rounds), and the analysis stage still runs over the empty
transcript, producing the sentiment result and the report from the
empty-transcript prompts and returning a complete result record. -/
theorem immediate_end_runs_analysis (topic : String) (personas : List Persona)
    (core : List String) (maxF : Nat) (fac : List ChatMsg → FacOut)
    (answerOf : Persona → List ChatMsg → String)
    (sentimentOf : List ChatMsg → SentimentAnalysis)
    (summarizeOf : List ChatMsg → SummaryReport) (today : String)
    (h : (fac (transcript_to_facilitator_prompt topic [] core [])).should_end = true) :
    run_interview_loop topic personas core maxF fac answerOf = some ⟨[], 0, []⟩ ∧
    run_interview topic personas core maxF fac answerOf sentimentOf summarizeOf today =
      some ⟨topic,
        summarizeOf (transcript_to_string_message topic []),
        sentimentOf (create_sentiment_prompt [] personas),
        transcript_to_markdown [] topic
          (summarizeOf (transcript_to_string_message topic []))
          (sentimentOf (create_sentiment_prompt [] personas)) today⟩ := by
  have hloop : run_interview_loop topic personas core maxF fac answerOf = some ⟨[], 0, []⟩ := by
    unfold run_interview_loop
    simp [run_loop, h]
  refine ⟨hloop, ?_⟩
  unfold run_interview
  rw [hloop]

/-- Witness for C7 at a facilitator that immediately ends the interview. -/
theorem immediate_end_runs_analysis_witness :
    run_interview_loop "T" [⟨"P", "d"⟩] ["A"] 2 (fun _ => ⟨"", true⟩) (fun _ _ => "ok") =
      some ⟨[], 0, []⟩ ∧
    run_interview "T" [⟨"P", "d"⟩] ["A"] 2 (fun _ => ⟨"", true⟩) (fun _ _ => "ok")
        (fun _ => ⟨[]⟩) (fun _ => ⟨"m", "GO", ["r"]⟩) "D" =
      some ⟨"T",
        (fun (_ : List ChatMsg) => (⟨"m", "GO", ["r"]⟩ : SummaryReport)) (transcript_to_string_message "T" []),
        (fun (_ : List ChatMsg) => (⟨[]⟩ : SentimentAnalysis)) (create_sentiment_prompt [] [⟨"P", "d"⟩]),
        transcript_to_markdown [] "T"
          ((fun (_ : List ChatMsg) => (⟨"m", "GO", ["r"]⟩ : SummaryReport)) (transcript_to_string_message "T" []))
          ((fun (_ : List ChatMsg) => (⟨[]⟩ : SentimentAnalysis)) (create_sentiment_prompt [] [⟨"P", "d"⟩])) "D"⟩ :=
  immediate_end_runs_analysis "T" [⟨"P", "d"⟩] ["A"] 2 (fun _ => ⟨"", true⟩)
    (fun _ _ => "ok") (fun _ => ⟨[]⟩) (fun _ => ⟨"m", "GO", ["r"]⟩) "D" rfl

/-- C2: every line included by the persona-view composer in
`responses_for_current_question` is an answer `"n: c"` of some persona
`n ≠ persona_name`, recorded after an occurrence of the `current_question`
record with no different question in between — i.e. the answer's associated
question is the current question, and the requesting persona's own answers
are never included. -/
theorem persona_view_only_peer_answers (pn cq : String) (t : List Msg) (x : String)
    (hx : x ∈ responses_for_current_question pn cq t) :
    ∃ n c t₁ t₂ t₃, x = n ++ ": " ++ c ∧ n ≠ pn ∧
      t = t₁ ++ Msg.question cq :: t₂ ++ Msg.answer n c :: t₃ ∧
      (∀ q, Msg.question q ∈ t₂ → q = cq) := by
  have hx₀ : x ∈ collect_responses pn cq false t := hx
  rcases collect_responses_false_split pn cq t with h0 | ⟨t₁, u, heq, hnotin, hval⟩
  · rw [h0] at hx₀
    simp at hx₀
  · rw [hval] at hx₀
    rcases mem_collect_true pn cq u x hx₀ with ⟨n, c, t₂, t₃, hxval, hn, hu, hq⟩
    exact ⟨n, c, t₁, t₂, t₃, hxval, hn, by rw [heq, hu]; simp, hq⟩

/-- Witness for C2: Bob's answer to `"Q"` in a two-record transcript is
included for Alice, and it satisfies the decomposition. -/
theorem persona_view_only_peer_answers_witness :
    ("Bob: hi" ∈ responses_for_current_question "Alice" "Q"
        [Msg.question "Q", Msg.answer "Bob" "hi"]) ∧
    (∃ n c t₁ t₂ t₃, "Bob: hi" = n ++ ": " ++ c ∧ n ≠ "Alice" ∧
      ([Msg.question "Q", Msg.answer "Bob" "hi"] : List Msg) =
        t₁ ++ Msg.question "Q" :: t₂ ++ Msg.answer n c :: t₃ ∧
      (∀ q, Msg.question q ∈ t₂ → q = "Q")) :=
  ⟨by decide, persona_view_only_peer_answers "Alice" "Q"
    [Msg.question "Q", Msg.answer "Bob" "hi"] "Bob: hi" (by decide)⟩

/-- C10: when the current question occurs (possibly several times) in the
transcript, the composer's scan anchors at the first occurrence: the result
equals exactly the peer lines extracted from the records between that first
occurrence and the first different question after it (scanning through
re-occurrences of the same question), so answers recorded after a later
re-asking that is separated by a different question are omitted. -/
theorem persona_view_anchors_first_occurrence (pn cq : String) (t₁ t₂ : List Msg)
    (h1 : Msg.question cq ∉ t₁) :
    responses_for_current_question pn cq (t₁ ++ Msg.question cq :: t₂) =
      (t₂.takeWhile (keep_scanning cq)).filterMap (peer_line pn) := by
  unfold responses_for_current_question
  rw [collect_responses_false_append pn cq t₁ h1 t₂, collect_responses_true]

/-- Witness for C10: with transcript
`[Q "P", Q "Q", Bob, Q "R", Carol, Q "Q", Dave]`, the view for Alice on
question `"Q"` anchors at the first `"Q"` and stops at `"R"`; by evaluation
it equals `["Bob: b1"]`, omitting Dave's answer to the later re-asking. -/
theorem persona_view_anchors_first_occurrence_witness :
    responses_for_current_question "Alice" "Q"
        ([Msg.question "P"] ++ Msg.question "Q" ::
          [Msg.answer "Bob" "b1", Msg.question "R", Msg.answer "Carol" "c1",
           Msg.question "Q", Msg.answer "Dave" "d1"]) =
      (([Msg.answer "Bob" "b1", Msg.question "R", Msg.answer "Carol" "c1",
         Msg.question "Q", Msg.answer "Dave" "d1"] : List Msg).takeWhile
           (keep_scanning "Q")).filterMap (peer_line "Alice") :=
  persona_view_anchors_first_occurrence "Alice" "Q" [Msg.question "P"]
    [Msg.answer "Bob" "b1", Msg.question "R", Msg.answer "Carol" "c1",
     Msg.question "Q", Msg.answer "Dave" "d1"] (by decide)

/-- C4: for every terminated interview run, the final transcript length
equals the number of completed rounds (`asked_questions.length`, one question
appended per round) times `1 + roster size` (one question record plus one
answer record per roster persona). -/
theorem transcript_length_is_rounds_times_records (topic : String)
    (personas : List Persona) (core : List String) (maxF : Nat)
    (fac : List ChatMsg → FacOut) (answerOf : Persona → List ChatMsg → String)
    (s : InterviewState)
    (h : run_interview_loop topic personas core maxF fac answerOf = some s) :
    s.transcript.length = s.asked_questions.length * (1 + personas.length) := by
  unfold run_interview_loop at h
  exact run_loop_preserves_record_count topic core maxF personas fac answerOf
    (core.length + maxF + 1) ⟨[], 0, []⟩ s h (by simp)

/-- Witness for C4 at a concrete three-round run: 6 transcript records,
3 rounds, roster of one. -/
theorem transcript_length_is_rounds_times_records_witness :
    (InterviewState.mk [Msg.question "Q1", Msg.answer "Alice" "ok", Msg.question "Q1",
        Msg.answer "Alice" "ok", Msg.question "Q1", Msg.answer "Alice" "ok"] 0
        ["Q1", "Q1", "Q1"]).transcript.length =
      (InterviewState.mk [Msg.question "Q1", Msg.answer "Alice" "ok", Msg.question "Q1",
        Msg.answer "Alice" "ok", Msg.question "Q1", Msg.answer "Alice" "ok"] 0
        ["Q1", "Q1", "Q1"]).asked_questions.length *
        (1 + ([⟨"Alice", "d"⟩] : List Persona).length) :=
  transcript_length_is_rounds_times_records "T" [⟨"Alice", "d"⟩] ["Q1"] 2
    (fun _ => ⟨"Q1", false⟩) (fun _ _ => "ok") _ rfl

/-- C5: one loop round appends to the transcript exactly the question
record followed by one answer record per persona, in roster order (the
sequence of answer authors equals the roster name sequence); when the roster
names are distinct, no persona authors two answers within the round. -/
theorem round_answers_roster_order (topic : String) (core : List String)
    (personas : List Persona) (answerOf : Persona → List ChatMsg → String)
    (q : String) (s : InterviewState)
    (hnodup : (personas.map Persona.name).Nodup) :
    ∃ ans : List Msg,
      (loop_step topic core personas answerOf q s).transcript =
        s.transcript ++ Msg.question q :: ans ∧
      ans.filterMap answer_name = personas.map Persona.name ∧
      (ans.filterMap answer_name).Nodup ∧
      (∀ m ∈ ans, ∃ nm c, m = Msg.answer nm c) := by
  rcases ask_personas_decomp answerOf topic q personas
    (s.transcript ++ [Msg.question q]) with ⟨cs, hlen, heq⟩
  refine ⟨List.zipWith (fun p c => Msg.answer p.name c) personas cs, ?_, ?_, ?_, ?_⟩
  · simp only [loop_step, track_followups_transcript, do_round, heq]
    simp
  · exact zipWith_answer_names personas cs hlen
  · rw [zipWith_answer_names personas cs hlen]
    exact hnodup
  · intro m hm
    exact zipWith_answer_shape personas cs m hm

/-- Witness for C5 at a two-persona roster with distinct names. -/
theorem round_answers_roster_order_witness :
    ∃ ans : List Msg,
      (loop_step "T" ["Q"] [⟨"Alice", "a"⟩, ⟨"Bob", "b"⟩] (fun _ _ => "ok") "Q"
        ⟨[], 0, []⟩).transcript = ([] : List Msg) ++ Msg.question "Q" :: ans ∧
      ans.filterMap answer_name =
        ([⟨"Alice", "a"⟩, ⟨"Bob", "b"⟩] : List Persona).map Persona.name ∧
      (ans.filterMap answer_name).Nodup ∧
      (∀ m ∈ ans, ∃ nm c, m = Msg.answer nm c) :=
  round_answers_roster_order "T" ["Q"] [⟨"Alice", "a"⟩, ⟨"Bob", "b"⟩]
    (fun _ _ => "ok") "Q" ⟨[], 0, []⟩ (by decide)

/-- Well-formed string arrays decode back to their contents. -/
theorem decodeStringList_map_str : ∀ l : List String,
    decodeStringList (l.map Json.str) = some l := by
  intro l
  induction l with
  | nil => rfl
  | cons s rest ih => simp [decodeStringList, Json.asString, ih]

/-- Well-formed `PersonaSentiment` objects decode back to their contents. -/
theorem decode_encode_persona (p : PersonaSentiment) :
    decodePersonaSentiment (encodePersonaSentiment p) = some p := by
  cases p with
  | mk name sentiment key_points summary =>
      simp [decodePersonaSentiment, encodePersonaSentiment, Json.getField,
        lookupField, Json.asString, Json.asArray, decodeStringList_map_str]

/-- Well-formed entry arrays decode back to their contents. -/
theorem decodeSentimentList_map (entries : List PersonaSentiment) :
    decodeSentimentList (entries.map encodePersonaSentiment) = some entries := by
  induction entries with
  | nil => rfl
  | cons p ps ih => simp [decodeSentimentList, decode_encode_persona, ih]

/-- C3, amended: the `SentimentAnalysis` schema validation is purely
structural — any well-formed list of entries passes, regardless of any
roster; nothing in the validation mentions the roster, so an output that
omits (or duplicates, or adds) roster personas is accepted silently. -/
theorem sentiment_schema_validates_structure_only (entries : List PersonaSentiment) :
    decodeSentimentAnalysis (encodeSentimentAnalysis entries) = some ⟨entries⟩ := by
  simp [decodeSentimentAnalysis, encodeSentimentAnalysis, Json.getField,
    lookupField, Json.asArray, decodeSentimentList_map]

/-- C3, counterexample: for the roster `[Alice, Bob]`, a backend output
containing only a `Bob` entry passes the `SentimentAnalysis` schema
validation even though roster persona `Alice` is absent — refuting
\"an output that omits a roster persona is rejected as a schema-validation
error\". -/
theorem sentiment_schema_accepts_missing_persona :
    decodeSentimentAnalysis (Json.obj [("personas",
        Json.arr [Json.obj [("name", Json.str "Bob"), ("sentiment", Json.str "POSITIVE"),
          ("key_points", Json.arr [Json.str "p1", Json.str "p2"]),
          ("summary", Json.str "s")]])]) =
      some ⟨[⟨"Bob", "POSITIVE", ["p1", "p2"], "s"⟩]⟩ ∧
    ([⟨"Alice", "da"⟩, ⟨"Bob", "db"⟩] : List Persona).map Persona.name = ["Alice", "Bob"] ∧
    "Alice" ∉ ([⟨"Bob", "POSITIVE", ["p1", "p2"], "s"⟩] : List PersonaSentiment).map
      PersonaSentiment.name :=
  ⟨rfl, rfl, by decide⟩

/-- C6, amended: the facilitator view is exactly the fixed template around
the topic, the full `core_questions` list and the full `asked_questions`
list (rendered with Python list syntax; the not-yet-asked subset appears
only implicitly as their difference), no follow-up count (the view receives
no `followups_used` input), and the rendering of a bounded window that is a
suffix of the transcript of at most the last 20 records. -/
theorem facilitator_view_structure (topic : String) (t : List Msg)
    (core asked : List String) :
    transcript_to_facilitator_prompt topic t core asked =
      [⟨"system", "You are a facilitator conducting an interview."⟩,
       ⟨"user", "You are facilitating an interview about the following idea:\n" ++ topic
          ++ "\n\nQuestions to ask:\n- Core questions: " ++ pyStrList core
          ++ "\n- Already asked: " ++ pyStrList asked
          ++ "\n\nRecent conversation:\n"
          ++ String.join ((fac_recent t).map render_fac_msg)
          ++ "\nDecide on the next question to ask or if the interview should end."⟩] ∧
    fac_recent t <:+ t ∧ (fac_recent t).length ≤ 20 :=
  ⟨rfl, fac_recent_suffix t, fac_recent_length_le t⟩

set_option maxRecDepth 4096 in
/-- C6, counterexample: with topic `"T"`, core questions `["A", "B"]` and
asked `["A"]` (so the not-yet-asked core list is `["B"]` and zero follow-ups
were used), the rendered facilitator prompt does not contain the rendering
`['B']` of the not-yet-asked list and contains no digit `0` anywhere (so no
count of used follow-ups is rendered), while it does contain the renderings
of the full core list and of the asked list. -/
theorem facilitator_view_counterexample :
    ¬ ((pyStrList ["B"]).toList <:+: (fac_prompt_text "T" [] ["A", "B"] ["A"]).toList) ∧
    ¬ ("0".toList <:+: (fac_prompt_text "T" [] ["A", "B"] ["A"]).toList) ∧
    ((pyStrList ["A", "B"]).toList <:+: (fac_prompt_text "T" [] ["A", "B"] ["A"]).toList) ∧
    ((pyStrList ["A"]).toList <:+: (fac_prompt_text "T" [] ["A", "B"] ["A"]).toList) := by
  decide

/-- Headers printed for a concatenation of feature runs split at the
matching index. -/
theorem batch_headers_append (n : Nat) :
    ∀ (l₁ l₂ : List Feature) (i : Nat),
      batch_headers n i (l₁ ++ l₂) =
        batch_headers n i l₁ ++ batch_headers n (i + l₁.length) l₂ := by
  intro l₁
  induction l₁ with
  | nil => intro l₂ i; simp [batch_headers]
  | cons g l ih =>
      intro l₂ i
      simp only [List.cons_append, batch_headers, List.append_eq, List.length_cons]
      rw [ih]
      have harith : i + 1 + l.length = i + (l.length + 1) := by omega
      rw [harith]

/-- The last header printed is the one of the last feature started. -/
theorem batch_headers_last (n : Nat) (f : Feature) (l : List Feature) (i : Nat) :
    (batch_headers n i (l ++ [f])).getLast? =
      some (batch_header (i + l.length) n f.topic) := by
  rw [batch_headers_append]
  simp [batch_headers]

/-- C8: in a batch run where every interview before `f` completes and the
interview for `f` fails with error `e`, the interviews run strictly
sequentially in list order: exactly the features before `f` and `f` itself
are started (one console header each, in order — the features after `f` are
never started, and nothing is retried), the artifacts persisted by the
completed prior interviews are exactly their results and remain retrievable,
the batch surfaces `e`, and the last console header printed before the
failure names the failing feature's topic. -/
theorem batch_halts_on_failure (personas : List Persona) (maxF : Nat)
    (facE : List ChatMsg → Except String FacOut)
    (answerE : Persona → List ChatMsg → Except String String)
    (sentimentE : List ChatMsg → Except String SentimentAnalysis)
    (summarizeE : List ChatMsg → Except String SummaryReport)
    (today : String) (pre post : List Feature) (f : Feature) (e : String)
    (rs : List InterviewResult)
    (hpre : List.Forall₂ (fun g r => run_interviewE g.topic personas g.core_questions maxF
        facE answerE sentimentE summarizeE today = Except.ok (some r)) pre rs)
    (hf : run_interviewE f.topic personas f.core_questions maxF facE answerE
        sentimentE summarizeE today = Except.error e) :
    run_batch_interviews (pre ++ f :: post) personas maxF facE answerE sentimentE
        summarizeE today =
      ({ headers := batch_headers (pre ++ f :: post).length 1 (pre ++ [f]),
         saved := rs }, Except.error e) ∧
    (batch_headers (pre ++ f :: post).length 1 (pre ++ [f])).getLast? =
      some (batch_header (pre.length + 1) (pre ++ f :: post).length f.topic) := by
  constructor
  · unfold run_batch_interviews
    rw [run_batch_go_spec personas maxF facE answerE sentimentE summarizeE today
      (pre ++ f :: post).length f post e hf pre rs hpre 1 [] ⟨[], []⟩]
    simp
  · rw [batch_headers_last]
    have harith : 1 + pre.length = pre.length + 1 := by omega
    rw [harith]

/-- Witness for C8: a two-feature batch whose first interview fails
(facilitator backend down); the batch halts having started only the first
feature, with the failing topic named in the last header. -/
theorem batch_halts_on_failure_witness :
    run_batch_interviews ([] ++ (⟨"BAD", ["Q"]⟩ : Feature) :: [⟨"Good", ["Q"]⟩]) [] 2
        (fun _ => Except.error "fac down") (fun _ _ => Except.ok "x")
        (fun _ => Except.ok ⟨[]⟩) (fun _ => Except.ok ⟨"m", "GO", ["r"]⟩) "D" =
      ({ headers := batch_headers (([] ++ (⟨"BAD", ["Q"]⟩ : Feature) :: [⟨"Good", ["Q"]⟩]).length) 1
           ([] ++ [(⟨"BAD", ["Q"]⟩ : Feature)]),
         saved := [] }, Except.error "fac down") ∧
    (batch_headers (([] ++ (⟨"BAD", ["Q"]⟩ : Feature) :: [⟨"Good", ["Q"]⟩]).length) 1
        ([] ++ [(⟨"BAD", ["Q"]⟩ : Feature)])).getLast? =
      some (batch_header ((List.length ([] : List Feature)) + 1)
        (([] ++ (⟨"BAD", ["Q"]⟩ : Feature) :: [⟨"Good", ["Q"]⟩]).length) "BAD") :=
  batch_halts_on_failure [] 2
    (fun _ => Except.error "fac down") (fun _ _ => Except.ok "x")
    (fun _ => Except.ok ⟨[]⟩) (fun _ => Except.ok ⟨"m", "GO", ["r"]⟩) "D"
    [] [⟨"Good", ["Q"]⟩] ⟨"BAD", ["Q"]⟩ "fac down" []
    List.Forall₂.nil rfl
